import Mathlib

/-!
Verification development for the agent-builder backend (`backend/app.py`).

The Python source is shallowly embedded: text is `List Char`, the standard
library's `json.loads` is embedded as an executable recursive-descent parser
(`jsonParse`), regular-expression checks are embedded as executable matchers
over `List Char`, exceptions are `Except` values, and the two external effects
(the upstream model call and the sandboxed subprocess) are parameters of the
embedded pipeline functions, universally quantified in the theorems.
-/

/-! ## Basic character machinery -/

/-- Left brace character, written via `Char.ofNat` throughout. -/
def lbrace : Char := Char.ofNat 123

/-- Right brace character. -/
def rbrace : Char := Char.ofNat 125

/-- Left bracket character. -/
def lbrack : Char := Char.ofNat 91

/-- Right bracket character. -/
def rbrack : Char := Char.ofNat 93

/-- Double-quote character. -/
def dquote : Char := Char.ofNat 34

/-- Backslash character. -/
def bslash : Char := Char.ofNat 92

/-- Whitespace characters recognised by Python's `json` module (`[ \t\n\r]`). -/
def isJsonWs (c : Char) : Bool := (" \t\n\r".data).contains c

/-- ASCII whitespace as used by Python's `str.strip` and the `\s` class of the
`re` module (the full Python semantics also cover non-ASCII Unicode whitespace,
which the embedding does not model; no claim depends on non-ASCII whitespace). -/
def isPyWs (c : Char) : Bool := (" \t\n\r\x0b\x0c".data).contains c

/-- Word characters for the `\b` boundary of the `re` module (`\w`, ASCII part). -/
def isWordChar (c : Char) : Bool := c.isAlphanum || c = '_'

/-- Python `str.strip()`: drop leading and trailing whitespace. -/
def pyStrip (s : List Char) : List Char :=
  ((s.dropWhile isPyWs).reverse.dropWhile isPyWs).reverse

/-- Python `sep.join(pieces)`. -/
def joinSep (sep : List Char) : List (List Char) → List Char
  | [] => []
  | [x] => x
  | x :: y :: rest => x ++ sep ++ joinSep sep (y :: rest)

/-- Match a literal prefix, returning the remaining input on success. -/
def dropLit : List Char → List Char → Option (List Char)
  | [], s => some s
  | _ :: _, [] => none
  | c :: cs, x :: xs => if x = c then dropLit cs xs else none

/-- Index of the first occurrence of a character, if any. -/
def firstIdx (c : Char) : List Char → Option Nat
  | [] => none
  | x :: xs => if x = c then some 0 else (firstIdx c xs).map (· + 1)

/-- Index of the last occurrence of a character, if any. -/
def lastIdx (c : Char) (s : List Char) : Option Nat :=
  (firstIdx c s.reverse).map (fun k => s.length - 1 - k)

/-- Embedding of `re.search(r"\{.*\}", text, re.DOTALL)` followed by
`match.group(0)`: the greedy match runs from the first left brace to the last
right brace of the whole text, provided the latter comes after the former. -/
def braceSpan (s : List Char) : Option (List Char) :=
  match firstIdx lbrace s, lastIdx rbrace s with
  | some i, some j => if i < j then some ((s.drop i).take (j - i + 1)) else none
  | _, _ => none

/-! ## JSON values and the embedding of `json.loads` -/

/-- JSON values as produced by Python's `json.loads`. Numbers keep their source
lexeme (the embedding does not normalise `1e2` to `100.0`; no claim depends on
numeric normalisation). Objects keep their key/value pairs in source order;
lookups take the last binding, matching Python dict construction. -/
inductive Json where
  | null
  | bool (b : Bool)
  | num (lexeme : List Char)
  | str (chars : List Char)
  | arr (elems : List Json)
  | obj (fields : List (List Char × Json))

/-- Drop leading JSON whitespace. -/
def skipWs (s : List Char) : List Char := s.dropWhile isJsonWs

/-- Value of a hexadecimal digit. -/
def hexVal (c : Char) : Option Nat :=
  if c.isDigit then some (c.toNat - 48)
  else if 'a' ≤ c && c ≤ 'f' then some (c.toNat - 87)
  else if 'A' ≤ c && c ≤ 'F' then some (c.toNat - 55)
  else none

/-- Take a maximal run of decimal digits. -/
def takeDigits (s : List Char) : List Char × List Char :=
  (s.takeWhile Char.isDigit, s.dropWhile Char.isDigit)

/-- Optional fraction part `(\.\d+)?` of the JSON number grammar; returns the
consumed lexeme (empty if the group does not match) and the rest. -/
def parseFrac (s : List Char) : List Char × List Char :=
  match s with
  | c :: rest =>
    if c = '.' then
      match takeDigits rest with
      | ([], _) => ([], s)
      | (ds, r) => ('.' :: ds, r)
    else ([], s)
  | [] => ([], s)

/-- Optional exponent part `([eE][-+]?\d+)?` of the JSON number grammar. -/
def parseExp (s : List Char) : List Char × List Char :=
  match s with
  | c :: rest =>
    if c = 'e' || c = 'E' then
      let sg := match rest with
        | d :: r => if d = '+' || d = '-' then ([d], r) else (([] : List Char), rest)
        | [] => ([], rest)
      match takeDigits sg.2 with
      | ([], _) => ([], s)
      | (ds, r2) => (c :: (sg.1 ++ ds), r2)
    else ([], s)
  | [] => ([], s)

/-- JSON number: `-?(0|[1-9]\d*)(\.\d+)?([eE][-+]?\d+)?`, returned as a lexeme. -/
def parseNumber (s : List Char) : Option (List Char × List Char) :=
  let sg := match s with
    | c :: rest => if c = '-' then (['-'], rest) else (([] : List Char), s)
    | [] => ([], s)
  match sg.2 with
  | [] => none
  | c :: rest =>
    if c = '0' then
      let fr := parseFrac rest
      let ex := parseExp fr.2
      some (sg.1 ++ ['0'] ++ fr.1 ++ ex.1, ex.2)
    else if c.isDigit then
      let ds := takeDigits rest
      let fr := parseFrac ds.2
      let ex := parseExp fr.2
      some (sg.1 ++ (c :: ds.1) ++ fr.1 ++ ex.1, ex.2)
    else none

/-- JSON string body (positioned just after the opening quote). Escapes are
decoded as by Python's strict `json` scanner; `\uXXXX` surrogate pairs are
combined, lone surrogate escapes are rejected (Python keeps lone surrogates in
the `str`; no claim involves lone surrogates). Control characters below 0x20
are rejected, as in strict mode. -/
def parseJString : Nat → List Char → Option (List Char × List Char)
  | 0, _ => none
  | _ + 1, [] => none
  | fuel + 1, c :: rest =>
    if c = dquote then some ([], rest)
    else if c = bslash then
      match rest with
      | [] => none
      | e :: r2 =>
        if e = dquote then (parseJString fuel r2).map (fun p => (dquote :: p.1, p.2))
        else if e = bslash then (parseJString fuel r2).map (fun p => (bslash :: p.1, p.2))
        else if e = '/' then (parseJString fuel r2).map (fun p => ('/' :: p.1, p.2))
        else if e = 'b' then (parseJString fuel r2).map (fun p => (Char.ofNat 8 :: p.1, p.2))
        else if e = 'f' then (parseJString fuel r2).map (fun p => (Char.ofNat 12 :: p.1, p.2))
        else if e = 'n' then (parseJString fuel r2).map (fun p => (Char.ofNat 10 :: p.1, p.2))
        else if e = 'r' then (parseJString fuel r2).map (fun p => (Char.ofNat 13 :: p.1, p.2))
        else if e = 't' then (parseJString fuel r2).map (fun p => (Char.ofNat 9 :: p.1, p.2))
        else if e = 'u' then
          match r2 with
          | h1 :: h2 :: h3 :: h4 :: r3 =>
            match hexVal h1, hexVal h2, hexVal h3, hexVal h4 with
            | some a, some b, some c3, some d =>
              let code := ((a * 16 + b) * 16 + c3) * 16 + d
              if 0xD800 ≤ code && code ≤ 0xDBFF then
                match r3 with
                | b2 :: u2 :: h5 :: h6 :: h7 :: h8 :: r4 =>
                  if b2 = bslash && u2 = 'u' then
                    match hexVal h5, hexVal h6, hexVal h7, hexVal h8 with
                    | some a2, some b3, some c4, some d2 =>
                      let code2 := ((a2 * 16 + b3) * 16 + c4) * 16 + d2
                      if 0xDC00 ≤ code2 && code2 ≤ 0xDFFF then
                        (parseJString fuel r4).map (fun p =>
                          (Char.ofNat (0x10000 + (code - 0xD800) * 0x400 + (code2 - 0xDC00)) :: p.1, p.2))
                      else none
                    | _, _, _, _ => none
                  else none
                | _ => none
              else if 0xDC00 ≤ code && code ≤ 0xDFFF then none
              else (parseJString fuel r3).map (fun p => (Char.ofNat code :: p.1, p.2))
            | _, _, _, _ => none
          | _ => none
        else none
    else if c.toNat < 32 then none
    else (parseJString fuel rest).map (fun p => (c :: p.1, p.2))

mutual

/-- JSON value parser (fuel-indexed; every recursive call consumes at least one
input character, so `length + 1` fuel always suffices). Accepts the same value
grammar as Python's `json.loads`, including the `NaN`/`Infinity`/`-Infinity`
constants. -/
def parseVal : Nat → List Char → Option (Json × List Char)
  | 0, _ => none
  | fuel + 1, s =>
    match skipWs s with
    | [] => none
    | c :: rest =>
      if c = dquote then (parseJString (rest.length + 1) rest).map (fun p => (Json.str p.1, p.2))
      else if c = lbrace then
        match skipWs rest with
        | d :: r2 => if d = rbrace then some (Json.obj [], r2) else parseObjFields fuel (d :: r2) []
        | [] => none
      else if c = lbrack then
        match skipWs rest with
        | d :: r2 => if d = rbrack then some (Json.arr [], r2) else parseArrElems fuel (d :: r2) []
        | [] => none
      else if c = 't' then (dropLit "rue".data rest).map (fun r => (Json.bool true, r))
      else if c = 'f' then (dropLit "alse".data rest).map (fun r => (Json.bool false, r))
      else if c = 'n' then (dropLit "ull".data rest).map (fun r => (Json.null, r))
      else if c = 'N' then (dropLit "aN".data rest).map (fun r => (Json.num "NaN".data, r))
      else if c = 'I' then (dropLit "nfinity".data rest).map (fun r => (Json.num "Infinity".data, r))
      else if c = '-' then
        match dropLit "Infinity".data rest with
        | some r => some (Json.num "-Infinity".data, r)
        | none => (parseNumber (c :: rest)).map (fun p => (Json.num p.1, p.2))
      else if c.isDigit then (parseNumber (c :: rest)).map (fun p => (Json.num p.1, p.2))
      else none

/-- Members of a JSON object after the opening brace (input positioned at the
first non-whitespace character of a key). -/
def parseObjFields : Nat → List Char → List (List Char × Json) → Option (Json × List Char)
  | 0, _, _ => none
  | fuel + 1, s, acc =>
    match s with
    | [] => none
    | c :: rest =>
      if c = dquote then
        match parseJString (rest.length + 1) rest with
        | some (key, r1) =>
          match skipWs r1 with
          | d :: r2 =>
            if d = ':' then
              match parseVal fuel r2 with
              | some (v, r3) =>
                match skipWs r3 with
                | e :: r4 =>
                  if e = ',' then parseObjFields fuel (skipWs r4) (acc ++ [(key, v)])
                  else if e = rbrace then some (Json.obj (acc ++ [(key, v)]), r4)
                  else none
                | [] => none
              | none => none
            else none
          | [] => none
        | none => none
      else none

/-- Elements of a JSON array after the opening bracket. -/
def parseArrElems : Nat → List Char → List Json → Option (Json × List Char)
  | 0, _, _ => none
  | fuel + 1, s, acc =>
    match parseVal fuel s with
    | some (v, r1) =>
      match skipWs r1 with
      | c :: r2 =>
        if c = ',' then parseArrElems fuel r2 (acc ++ [v])
        else if c = rbrack then some (Json.arr (acc ++ [v]), r2)
        else none
      | [] => none
    | none => none

end

/-- Embedding of `json.loads`: parse one JSON value and require only trailing
whitespace after it. -/
def jsonParse (s : List Char) : Option Json :=
  match parseVal (s.length + 1) s with
  | some (v, rest) => if skipWs rest = [] then some v else none
  | none => none

/-- Embedding of `_extract_json` (app.py lines 160-167): try `json.loads` on
the whole text; on failure take the greedy first-brace-to-last-brace span and
parse that; a failure of both (or a missing span) raises to the caller, which
the embedding reports as `none`. -/
def _extract_json (text : List Char) : Option Json :=
  match jsonParse text with
  | some v => some v
  | none =>
    match braceSpan text with
    | some sub => jsonParse sub
    | none => none

/-! ## Execution runner (`_run_agent_code`, app.py lines 246-323) -/

/-- Fixed stderr message for the size-limit validation failure. -/
def sizeLimitMsg : List Char := "Agent code too large. Limit is 120k characters.".data

/-- Fixed stderr message for the missing-class validation failure. -/
def missingClassMsg : List Char := "Agent code must define class Agent for the runner.".data

/-- Fixed stderr message for the missing-run-signature validation failure. -/
def missingRunMsg : List Char :=
  "Agent code must define run(self, task: str) -> str for the runner.".data

/-- Fixed stderr message on subprocess timeout. -/
def timeoutMsg : List Char := "Execution timed out after 60 seconds.".data

/-- Does a predicate match at some suffix of the input? This is how `re.search`
tries every start position. -/
def existsAt (p : List Char → Bool) : List Char → Bool
  | [] => p []
  | c :: rest => p (c :: rest) || existsAt p rest

/-- Match the pattern `class\s+Agent\b` at the start of the input. Maximal-munch
whitespace is equivalent to the regex here because the following literal starts
with a non-whitespace character. -/
def matchClassAgentAt (s : List Char) : Bool :=
  match dropLit "class".data s with
  | none => false
  | some s1 =>
    match s1 with
    | [] => false
    | c :: cs =>
      if isPyWs c then
        match dropLit "Agent".data (cs.dropWhile isPyWs) with
        | none => false
        | some s3 =>
          match s3 with
          | [] => true
          | d :: _ => !isWordChar d
      else false

/-- Embedding of `re.search(r"class\s+Agent\b", agent_code)` as a Boolean. -/
def hasClassAgent (agent_code : List Char) : Bool := existsAt matchClassAgentAt agent_code

/-- Token of the signature pattern: a literal, or mandatory (`\s+`) or optional
(`\s*`) whitespace. -/
inductive SigTok where
  | lit (cs : List Char)
  | wsOpt
  | wsReq

/-- Match a token sequence at the start of the input. -/
def matchToks : List SigTok → List Char → Bool
  | [], _ => true
  | SigTok.lit cs :: toks, s =>
    match dropLit cs s with
    | some r => matchToks toks r
    | none => false
  | SigTok.wsOpt :: toks, s => matchToks toks (s.dropWhile isPyWs)
  | SigTok.wsReq :: toks, s =>
    match s with
    | c :: cs => if isPyWs c then matchToks toks (cs.dropWhile isPyWs) else false
    | [] => false

/-- The pattern `def\s+run\s*\(\s*self\s*,\s*task\s*:\s*str\s*\)\s*->\s*str\s*:`
as a token sequence. Maximal-munch whitespace is equivalent to the regex since
every literal after a whitespace class starts with a non-whitespace character. -/
def runSigPat : List SigTok :=
  [SigTok.lit "def".data, SigTok.wsReq, SigTok.lit "run".data, SigTok.wsOpt,
   SigTok.lit "(".data, SigTok.wsOpt, SigTok.lit "self".data, SigTok.wsOpt,
   SigTok.lit ",".data, SigTok.wsOpt, SigTok.lit "task".data, SigTok.wsOpt,
   SigTok.lit ":".data, SigTok.wsOpt, SigTok.lit "str".data, SigTok.wsOpt,
   SigTok.lit ")".data, SigTok.wsOpt, SigTok.lit "->".data, SigTok.wsOpt,
   SigTok.lit "str".data, SigTok.wsOpt, SigTok.lit ":".data]

/-- Embedding of the `run(self, task: str) -> str` signature search. -/
def hasRunSig (agent_code : List Char) : Bool := existsAt (matchToks runSigPat) agent_code

/-- Result record of the runner (the `RunResponse` pydantic model). -/
structure RunResponse where
  ok : Bool
  stdout : List Char
  stderr : List Char
  exit_code : Int
deriving DecidableEq

/-- Outcome of the launched harness subprocess, the one external effect of the
runner. `completed` carries the exit status and captured output (already
decoded; the permissive byte decoding of the source is not modelled at byte
level). `timedOut` carries the partial stdout captured before the kill, when
any. `launchFailed` is any other exception from `subprocess.run`, with its
rendered message. -/
inductive ExecOutcome where
  | completed (returncode : Int) (stdout stderr : List Char)
  | timedOut (captured : Option (List Char))
  | launchFailed (msg : List Char)

/-- The runner after the size check has passed: the class and signature checks,
then the subprocess phase with its uniform result mapping (app.py 254-323). The
scratch-directory bookkeeping has no observable effect on the returned value
and is not modelled; the subprocess outcome is the `exec` parameter. -/
def postSizeChecks (agent_code : List Char) (exec : ExecOutcome) : RunResponse :=
  if !hasClassAgent agent_code then
    ⟨false, [], missingClassMsg, 1⟩
  else if !hasRunSig agent_code then
    ⟨false, [], missingRunMsg, 1⟩
  else
    match exec with
    | .completed rc out err => ⟨rc == 0, out, err, rc⟩
    | .timedOut captured => ⟨false, captured.getD [], timeoutMsg, 124⟩
    | .launchFailed m => ⟨false, [], "Runner failed: ".data ++ m, 1⟩

/-- Embedding of `_run_agent_code`: the size check, then `postSizeChecks`.
The `prompt` and `tools` arguments only feed the JSON payload written to the
subprocess's stdin; their influence is inside the `exec` outcome. -/
def _run_agent_code (agent_code prompt : List Char) (tools : Option (List (List Char)))
    (exec : ExecOutcome) : RunResponse :=
  if 120000 < agent_code.length then
    ⟨false, [], sizeLimitMsg, 1⟩
  else postSizeChecks agent_code exec

/-! ## Chat data model and the blocking pipeline (`chat`, app.py lines 326-417) -/

/-- Caller-visible message roles (`Literal["user", "assistant"]`). -/
inductive Role where
  | user
  | assistant
deriving DecidableEq

/-- The `ChatMessage` pydantic model. -/
structure ChatMessage where
  role : Role
  content : List Char
deriving DecidableEq

/-- The `ChatResponse` pydantic model (`raw_text` defaults to `None`). -/
structure ChatResponse where
  assistant_text : List Char
  diagram_mermaid : List Char
  agent_code : List Char
  raw_text : Option (List Char)
deriving DecidableEq

/-- The three generation phases of the pipeline. -/
inductive GenPhase where
  | planner
  | diagram
  | code
deriving DecidableEq

/-- Single-quote character, for the Python `repr` rendering. -/
def squote : Char := Char.ofNat 39

mutual

/-- Python `repr` of a JSON-representable value, as used by `str()` on
containers. Approximate on two points that no claim depends on: string `repr`
always uses single quotes without re-escaping, and float lexemes are not
normalised. -/
def pyRepr : Json → List Char
  | .null => "None".data
  | .bool true => "True".data
  | .bool false => "False".data
  | .num lx => lx
  | .str s => [squote] ++ s ++ [squote]
  | .arr xs => [lbrack] ++ joinSep ", ".data (pyReprList xs) ++ [rbrack]
  | .obj fs => [lbrace] ++ joinSep ", ".data (pyReprFields fs) ++ [rbrace]

/-- Renders of the elements of a list. -/
def pyReprList : List Json → List (List Char)
  | [] => []
  | x :: xs => pyRepr x :: pyReprList xs

/-- Renders of the key/value pairs of a dict. -/
def pyReprFields : List (List Char × Json) → List (List Char)
  | [] => []
  | (k, v) :: rest => ([squote] ++ k ++ [squote] ++ ": ".data ++ pyRepr v) :: pyReprFields rest

end

/-- Python `str()` applied to a JSON-representable value, as in an f-string. -/
def pyStr : Json → List Char
  | .str s => s
  | j => pyRepr j

/-- All elements of the list as strings, or `none` if some element is not a
string (in which case Python's `str.join` raises `TypeError`). -/
def allStrs : List Json → Option (List (List Char))
  | [] => some []
  | Json.str s :: rest => (allStrs rest).map (fun l => s :: l)
  | _ => none

/-- The synthetic user turn rendering a plan, from the conditional expression
`f"Plan:\n- " + "\n- ".join(plan) if isinstance(plan, list) else
f"Plan:\n{plan}"` (app.py 384-391 and 504-511). A non-string element makes
`join` raise `TypeError`, which the enclosing handler catches. -/
def renderPlan : Json → Except (List Char) (List Char)
  | .arr xs =>
    match allStrs xs with
    | some ss => .ok ("Plan:\n- ".data ++ joinSep "\n- ".data ss)
    | none => .error "TypeError: sequence item: expected str instance".data
  | j => .ok ("Plan:\n".data ++ pyStr j)

/-- Embedding of `planner_data.get(key, default)`: on a dict, the last binding
of the key or the default; on any other value, `.get` raises
`AttributeError`. -/
def dictGet (j : Json) (key : List Char) (dflt : Json) : Except (List Char) Json :=
  match j with
  | .obj fields =>
    match fields.reverse.find? (fun kv => kv.1 == key) with
    | some kv => .ok kv.2
    | none => .ok dflt
  | _ => .error "AttributeError: get".data

/-- The extractor as the pipeline sees it: a thrown `JSONDecodeError` becomes
an `Except` error. -/
def extractJsonE (text : List Char) : Except (List Char) Json :=
  match _extract_json text with
  | some v => .ok v
  | none => .error "json.JSONDecodeError: no JSON object could be decoded".data

/-- Pydantic validation of a `str` field of `ChatResponse`: a non-string value
raises a `ValidationError` inside the `try` block. -/
def asStr : Json → Except (List Char) (List Char)
  | .str s => .ok s
  | _ => .error "pydantic ValidationError for ChatResponse".data

/-- The joined, trimmed contents of the user-role turns (app.py 329-331 and
424-426). -/
def processedText (msgs : List ChatMessage) : List Char :=
  pyStrip (joinSep " ".data
    (msgs.filterMap (fun m => if m.role = Role.user then some (pyStrip m.content) else none)))

/-- Fixed marker prefixed to the synthetic pre-processed-input turn. -/
def ingestNoteMark : List Char := "Processed text (from Ingestion + Preprocess):\n".data

/-- Embedding of `planner_messages`: the caller conversation plus the synthetic
note, appended only when the joined trimmed user text is non-empty (Python
truthiness of `processed_text`). -/
def mkPlannerMessages (msgs : List ChatMessage) : List ChatMessage :=
  if processedText msgs = [] then msgs
  else msgs ++ [⟨Role.user, ingestNoteMark ++ processedText msgs⟩]

/-- Context for the diagram phase: the planner context plus one synthetic user
turn carrying the rendered plan (app.py 384-391, 504-511). -/
def diagram_context (planner_messages : List ChatMessage) (planContent : List Char) :
    List ChatMessage :=
  planner_messages ++ [⟨Role.user, planContent⟩]

/-- Context for the code phase: the diagram context plus one synthetic user
turn carrying the diagram text (app.py 397-399, 537-539). -/
def code_context (dctx : List ChatMessage) (diagramContent : List Char) : List ChatMessage :=
  dctx ++ [⟨Role.user, diagramContent⟩]

/-- The body of the `try` block of the `chat` handler. The upstream model is
the `call` parameter (`_responses_call` with the phase's fixed prompt and
output schema); any raise at any step aborts the body with that exception. On
success it produces the validated `(assistant_text, diagram_mermaid,
agent_code)` triple. -/
def chatBody (msgs : List ChatMessage)
    (call : GenPhase → List ChatMessage → Except (List Char) (List Char)) :
    Except (List Char) (List Char × List Char × List Char) := do
  let planner_messages := mkPlannerMessages msgs
  let planner_text ← call GenPhase.planner planner_messages
  let planner_data ← extractJsonE planner_text
  let assistant_text ← dictGet planner_data "assistant_text".data (Json.str [])
  let plan ← dictGet planner_data "plan".data (Json.arr [])
  let planContent ← renderPlan plan
  let dctx := diagram_context planner_messages planContent
  let diagram_text ← call GenPhase.diagram dctx
  let diagram_data ← extractJsonE diagram_text
  let diagram_mermaid ← dictGet diagram_data "diagram_mermaid".data (Json.str [])
  let cctx := code_context dctx ("Diagram:\n".data ++ pyStr diagram_mermaid)
  let code_text ← call GenPhase.code cctx
  let code_data ← extractJsonE code_text
  let agent_code ← dictGet code_data "agent_code".data (Json.str [])
  let at1 ← asStr assistant_text
  let dm1 ← asStr diagram_mermaid
  let ac1 ← asStr agent_code
  pure (at1, dm1, ac1)

/-- Fixed apologetic assistant text of the fallback response. -/
def fallbackAssistantText : List Char :=
  "I had trouble formatting the response. Try again.".data

/-- Fixed placeholder Mermaid diagram of the fallback response. -/
def fallbackDiagram : List Char :=
  "flowchart LR\n  A[Input] --> B[Planner] --> C[Tools] --> D[Output]".data

/-- The `BASE_AGENT_TEMPLATE` constant (app.py lines 41-76), after the
`.strip()` applied in the source. Literal braces are written `\x7b`/`\x7d` and
apostrophes `\x27`. -/
def BASE_AGENT_TEMPLATE : String :=
  "import os\n"
  ++ "from typing import List, Dict\n"
  ++ "\n"
  ++ "from openai import OpenAI\n"
  ++ "\n"
  ++ "class Agent:\n"
  ++ "    def __init__(self, tools: List[str]):\n"
  ++ "        self.tools = tools\n"
  ++ "        self.client = OpenAI(api_key=os.getenv(\"OPENAI_API_KEY\"))\n"
  ++ "\n"
  ++ "    def plan(self, task: str) -> List[Dict[str, str]]:\n"
  ++ "        return [\n"
  ++ "            \x7b\"step\": \"analyze\", \"detail\": task\x7d,\n"
  ++ "            \x7b\"step\": \"select_tool\", \"detail\": \", \".join(self.tools)\x7d,\n"
  ++ "            \x7b\"step\": \"execute\", \"detail\": \"run selected tools\"\x7d,\n"
  ++ "            \x7b\"step\": \"summarize\", \"detail\": \"return result\"\x7d,\n"
  ++ "        ]\n"
  ++ "\n"
  ++ "    def call_llm(self, prompt: str) -> str:\n"
  ++ "        # Placeholder LLM call for the agent pipeline\n"
  ++ "        resp = self.client.responses.create(\n"
  ++ "            model=\"gpt-5-nano-2025-08-07\",\n"
  ++ "            input=[\x7b\"role\": \"user\", \"content\": [\x7b\"type\": \"input_text\", \"text\": prompt\x7d]\x7d],\n"
  ++ "        )\n"
  ++ "        return resp.output_text\n"
  ++ "\n"
  ++ "    def run(self, task: str) -> str:\n"
  ++ "        plan = self.plan(task)\n"
  ++ "        _ = self.call_llm(task)\n"
  ++ "        return \"\\n\".join([f\"\x7bp[\x27step\x27]\x7d: \x7bp[\x27detail\x27]\x7d\" for p in plan])\n"
  ++ "\n"
  ++ "if __name__ == \"__main__\":\n"
  ++ "    agent = Agent([\"search\", \"codegen\", \"diagram\"])\n"
  ++ "    print(agent.run(\"Build a simple agent\"))"

/-- Embedding of the `chat` handler: the `try` body, or on any exception the
fixed fallback `ChatResponse` with `raw_text` carrying the rendered
exception (app.py 405-417). -/
def chat (msgs : List ChatMessage)
    (call : GenPhase → List ChatMessage → Except (List Char) (List Char)) : ChatResponse :=
  match chatBody msgs call with
  | .ok r => ⟨r.1, r.2.1, r.2.2, none⟩
  | .error e => ⟨fallbackAssistantText, fallbackDiagram, BASE_AGENT_TEMPLATE.data, some e⟩

/-! ## Streaming pipeline (`chat_stream` / `event_stream`, app.py lines 420-572) -/

/-- A provider-native incremental event, as the generator observes it.
`ty`/`delta` model `getattr(event, "type", ...)` and `getattr(event, "delta",
None)`: `none` stands for a missing attribute. -/
structure ProviderEvent where
  ty : Option (List Char)
  delta : Option (List Char)

/-- Behaviour of one `_responses_stream` call: the provider events delivered,
then either normal exhaustion (`ok`) or an exception raised during creation or
iteration (`error`, after the listed events were already yielded). -/
structure StreamBeh where
  events : List ProviderEvent
  term : Except (List Char) Unit

/-- Payloads of the server-sent `message` events, one constructor per distinct
dict shape built in `event_stream`. -/
inductive Payload where
  | start (phase status : List Char)
  | forward (phase ty : List Char) (delta : Option (List Char))
  | plannerDone (assistant_text plan : Json)
  | diagramDone (diagram_mermaid : Json)
  | codeDone (agent_code : Json)
  | allDone

/-- A server-sent event: a normal `event: message` payload, or the single
`event: error` payload of the `except` clause. -/
inductive SSE where
  | message (p : Payload)
  | errorEvent (msg : List Char)

/-- The forwarded payload for one provider event
(`{"phase": ..., "type": getattr(event, "type", "unknown"), "delta":
getattr(event, "delta", None)}`). -/
def forwardPayload (phase : List Char) (e : ProviderEvent) : Payload :=
  Payload.forward phase (e.ty.getD "unknown".data) e.delta

/-- The events forwarded verbatim, in order, for one phase's provider stream. -/
def phaseForward (phase : List Char) (evs : List ProviderEvent) : List SSE :=
  evs.map (fun e => SSE.message (forwardPayload phase e))

/-- The text a provider event contributes to the phase buffer: only events
whose `type` is `response.output_text.delta` (here `getattr` defaults to `""`)
and whose `delta` is truthy (present and non-empty). -/
def deltaText (e : ProviderEvent) : Option (List Char) :=
  if e.ty.getD [] = "response.output_text.delta".data then
    match e.delta with
    | some d => if d = [] then none else some d
    | none => none
  else none

/-- The accumulated buffer text of one phase (`"".join(buffer)`). -/
def phaseDeltas (evs : List ProviderEvent) : List Char := (evs.filterMap deltaText).flatten

/-- One step inside the generator's `try` block: if the step raises, the
generator stops with the events yielded so far and the pending exception
(which the `except` clause will turn into the terminal error event); otherwise
the continuation runs. -/
def withStep {α : Type} (evs : List SSE) (x : Except (List Char) α)
    (k : α → List SSE × Except (List Char) Unit) : List SSE × Except (List Char) Unit :=
  match x with
  | .error m => (evs, .error m)
  | .ok a => k a

/-- The `try` body of the `event_stream` generator: the `message` events it
yields, in order, paired with `ok` on normal completion (after yielding the
`all.done` event) or `error` carrying the exception that escaped after the
listed events were yielded. The upstream streams are the `beh` parameter,
indexed by phase and by the context passed to `_responses_stream`. -/
def tryBody (msgs : List ChatMessage) (beh : GenPhase → List ChatMessage → StreamBeh) :
    List SSE × Except (List Char) Unit :=
  let planner_messages := mkPlannerMessages msgs
  let pb := beh GenPhase.planner planner_messages
  let e1 := SSE.message (Payload.start "planner".data "Planning response".data) ::
    phaseForward "planner".data pb.events
  withStep e1 pb.term fun _ =>
  withStep e1 (extractJsonE (phaseDeltas pb.events)) fun planner_data =>
  withStep e1 (dictGet planner_data "assistant_text".data (Json.str [])) fun assistant_text =>
  withStep e1 (dictGet planner_data "plan".data (Json.arr [])) fun plan =>
  let e2 := e1 ++ [SSE.message (Payload.plannerDone assistant_text plan),
    SSE.message (Payload.start "diagram".data "Building diagram".data)]
  withStep e2 (renderPlan plan) fun planContent =>
  let dctx := diagram_context planner_messages planContent
  let db := beh GenPhase.diagram dctx
  let e3 := e2 ++ phaseForward "diagram".data db.events
  withStep e3 db.term fun _ =>
  withStep e3 (extractJsonE (phaseDeltas db.events)) fun diagram_data =>
  withStep e3 (dictGet diagram_data "diagram_mermaid".data (Json.str [])) fun diagram_mermaid =>
  let e4 := e3 ++ [SSE.message (Payload.diagramDone diagram_mermaid),
    SSE.message (Payload.start "code".data "Generating code".data)]
  let cctx := code_context dctx ("Diagram:\n".data ++ pyStr diagram_mermaid)
  let cb := beh GenPhase.code cctx
  let e5 := e4 ++ phaseForward "code".data cb.events
  withStep e5 cb.term fun _ =>
  withStep e5 (extractJsonE (phaseDeltas cb.events)) fun code_data =>
  withStep e5 (dictGet code_data "agent_code".data (Json.str [])) fun agent_code =>
  (e5 ++ [SSE.message (Payload.codeDone agent_code), SSE.message Payload.allDone], .ok ())

/-- Embedding of the full `event_stream` generator: the `try` body's events,
followed by the single terminal `event: error` event when an exception
escaped. -/
def eventStream (msgs : List ChatMessage) (beh : GenPhase → List ChatMessage → StreamBeh) :
    List SSE :=
  match tryBody msgs beh with
  | (evs, .ok _) => evs
  | (evs, .error m) => evs ++ [SSE.errorEvent m]

/-- An event that is neither the terminal `all.done` message nor an error
event. -/
def nonTerminal : SSE → Bool
  | .message Payload.allDone => false
  | .errorEvent _ => false
  | .message _ => true

/-! ## Formalisation of "contains exactly one well-formed JSON object" -/

/-- The substring of length `len` starting at index `i`. -/
def sliceAt (s : List Char) (i len : Nat) : List Char := (s.drop i).take len

/-- Is the value a JSON object? -/
def isObjVal : Json → Bool
  | .obj _ => true
  | _ => false

/-- Every JSON object value readable from some substring of the text (with
`json.loads` tolerance for surrounding whitespace), with multiplicity over
substring positions. -/
def objValuesIn (s : List Char) : List Json :=
  (List.range (s.length + 1)).flatMap (fun i =>
    (List.range (s.length + 1)).filterMap (fun len =>
      match jsonParse (sliceAt s i len) with
      | some v => if isObjVal v then some v else none
      | none => none))

/-- The text contains exactly one well-formed JSON object, namely `v`: some
substring parses to an object, and every substring that parses to an object
parses to `v`. -/
def uniqueJsonObject (s : List Char) (v : Json) : Prop :=
  objValuesIn s ≠ [] ∧ ∀ w ∈ objValuesIn s, w = v

/-- Counterexample input for C1: exactly one well-formed JSON object,
surrounded by non-JSON text that contains a stray right brace. -/
def c1Text : List Char := "\x7b\"a\": 1\x7d \x7d".data

/-! ## Helper lemmas -/

/-- Taking the length of the left operand of an append yields it. -/
theorem take_len_append {α : Type} (l₁ l₂ : List α) : (l₁ ++ l₂).take l₁.length = l₁ := by
  induction l₁ with
  | nil => rfl
  | cons x xs ih => simp [ih]

/-- Dropping the length of the left operand of an append yields the right one. -/
theorem drop_len_append {α : Type} (l₁ l₂ : List α) : (l₁ ++ l₂).drop l₁.length = l₂ := by
  induction l₁ with
  | nil => rfl
  | cons x xs ih => simp [ih]

/-- The first occurrence of `c` in `pre ++ c :: tail` is at `pre.length` when
`pre` avoids `c`. -/
theorem firstIdx_append (c : Char) (pre tail : List Char) (h : c ∉ pre) :
    firstIdx c (pre ++ c :: tail) = some pre.length := by
  induction pre with
  | nil => simp [firstIdx]
  | cons p ps ih =>
    have hp : ¬ p = c := by
      intro e
      exact h (e ▸ List.mem_cons_self p ps)
    have hps : c ∉ ps := fun hm => h (List.mem_cons_of_mem _ hm)
    simp [firstIdx, hp, ih hps]

/-- The last occurrence of `c` in `front ++ c :: post` is at `front.length`
when `post` avoids `c`. -/
theorem lastIdx_append (c : Char) (front post : List Char) (h : c ∉ post) :
    lastIdx c (front ++ c :: post) = some front.length := by
  have hrev : (front ++ c :: post).reverse = post.reverse ++ c :: front.reverse := by
    simp
  have h2 : c ∉ post.reverse := by simpa using h
  unfold lastIdx
  rw [hrev, firstIdx_append c _ _ h2]
  simp

/-- The greedy brace span of `pre ++ obj ++ post` is exactly `obj` when `obj`
is brace-delimited, `pre` has no left brace and `post` has no right brace. -/
theorem braceSpan_decomp (pre mid post : List Char)
    (hpre : lbrace ∉ pre) (hpost : rbrace ∉ post) :
    braceSpan (pre ++ (lbrace :: mid ++ [rbrace]) ++ post) =
      some (lbrace :: mid ++ [rbrace]) := by
  have e1 : pre ++ (lbrace :: mid ++ [rbrace]) ++ post =
      pre ++ lbrace :: (mid ++ [rbrace] ++ post) := by simp
  have e2 : pre ++ (lbrace :: mid ++ [rbrace]) ++ post =
      (pre ++ lbrace :: mid) ++ rbrace :: post := by simp
  have hfi : firstIdx lbrace (pre ++ (lbrace :: mid ++ [rbrace]) ++ post) = some pre.length := by
    rw [e1]; exact firstIdx_append _ _ _ hpre
  have hla : lastIdx rbrace (pre ++ (lbrace :: mid ++ [rbrace]) ++ post) =
      some (pre.length + mid.length + 1) := by
    rw [e2, lastIdx_append _ _ _ hpost]
    simp
    omega
  have e3 : pre.length + mid.length + 1 - pre.length + 1 = (lbrace :: mid ++ [rbrace]).length := by
    simp only [List.length_cons, List.length_append, List.length_nil]
    omega
  have e4 : (pre ++ (lbrace :: mid ++ [rbrace]) ++ post).drop pre.length =
      (lbrace :: mid ++ [rbrace]) ++ post := by
    simp
  unfold braceSpan
  rw [hfi, hla]
  show (if pre.length < pre.length + mid.length + 1 then
      some (((pre ++ (lbrace :: mid ++ [rbrace]) ++ post).drop pre.length).take
        (pre.length + mid.length + 1 - pre.length + 1))
    else none) = some (lbrace :: mid ++ [rbrace])
  rw [if_pos (by omega), e3, e4, take_len_append]

/-- Forwarded provider events are never terminal events. -/
theorem phaseForward_nonTerminal (ph : List Char) (evs : List ProviderEvent) :
    (phaseForward ph evs).all nonTerminal = true := by
  simp [phaseForward, forwardPayload, nonTerminal]

/-- Shape invariant through one `withStep`: if the events so far are
non-terminal and every continuation result has the invariant shape, so does
the step. -/
theorem withStep_shape {α : Type} (evs : List SSE) (x : Except (List Char) α)
    (k : α → List SSE × Except (List Char) Unit)
    (hevs : evs.all nonTerminal = true)
    (hk : ∀ a, ∃ pre : List SSE, pre.all nonTerminal = true ∧
      ((∃ m, k a = (pre, Except.error m)) ∨
        k a = (pre ++ [SSE.message Payload.allDone], Except.ok ()))) :
    ∃ pre : List SSE, pre.all nonTerminal = true ∧
      ((∃ m, withStep evs x k = (pre, Except.error m)) ∨
        withStep evs x k = (pre ++ [SSE.message Payload.allDone], Except.ok ())) := by
  cases x with
  | error m => exact ⟨evs, hevs, Or.inl ⟨m, rfl⟩⟩
  | ok a => exact hk a

/-- Shape of the successful tail of the `try` body: a phase-done event then the
single `all.done` event. -/
theorem doneStep_shape (evs : List SSE) (x : Payload)
    (hevs : evs.all nonTerminal = true) (hx : nonTerminal (SSE.message x) = true) :
    ∃ pre : List SSE, pre.all nonTerminal = true ∧
      ((∃ m, (evs ++ [SSE.message x, SSE.message Payload.allDone], (Except.ok () : Except (List Char) Unit)) =
        (pre, Except.error m)) ∨
        (evs ++ [SSE.message x, SSE.message Payload.allDone], (Except.ok () : Except (List Char) Unit)) =
          (pre ++ [SSE.message Payload.allDone], Except.ok ())) := by
  refine ⟨evs ++ [SSE.message x], ?_, Or.inr (by simp)⟩
  simp [List.all_append, hevs, hx]

/-- Shape of the generator's `try` body: the events it yields are non-terminal
except for a single final `all.done` in the success case, and a pending
exception leaves exactly the non-terminal prefix. -/
theorem tryBody_shape (msgs : List ChatMessage) (beh : GenPhase → List ChatMessage → StreamBeh) :
    ∃ pre : List SSE, pre.all nonTerminal = true ∧
      ((∃ m, tryBody msgs beh = (pre, Except.error m)) ∨
        tryBody msgs beh = (pre ++ [SSE.message Payload.allDone], Except.ok ())) := by
  unfold tryBody
  refine withStep_shape _ _ _ (by simp [nonTerminal, phaseForward_nonTerminal]) fun _ => ?_
  refine withStep_shape _ _ _ (by simp [nonTerminal, phaseForward_nonTerminal]) fun pd => ?_
  refine withStep_shape _ _ _ (by simp [nonTerminal, phaseForward_nonTerminal]) fun at1 => ?_
  refine withStep_shape _ _ _ (by simp [nonTerminal, phaseForward_nonTerminal]) fun plan => ?_
  refine withStep_shape _ _ _
    (by simp [List.all_append, nonTerminal, phaseForward_nonTerminal]) fun pc => ?_
  refine withStep_shape _ _ _
    (by simp [List.all_append, nonTerminal, phaseForward_nonTerminal]) fun _ => ?_
  refine withStep_shape _ _ _
    (by simp [List.all_append, nonTerminal, phaseForward_nonTerminal]) fun dd => ?_
  refine withStep_shape _ _ _
    (by simp [List.all_append, nonTerminal, phaseForward_nonTerminal]) fun dm => ?_
  refine withStep_shape _ _ _
    (by simp [List.all_append, nonTerminal, phaseForward_nonTerminal]) fun _ => ?_
  refine withStep_shape _ _ _
    (by simp [List.all_append, nonTerminal, phaseForward_nonTerminal]) fun cd => ?_
  refine withStep_shape _ _ _
    (by simp [List.all_append, nonTerminal, phaseForward_nonTerminal]) fun ac => ?_
  exact doneStep_shape _ _
    (by simp [List.all_append, nonTerminal, phaseForward_nonTerminal])
    (by simp [nonTerminal])

/-! ## Claim theorems -/

/-- C1, counterexample: the input `{"a": 1} }` contains exactly one well-formed
JSON object, surrounded by non-JSON text, yet `_extract_json` fails on it: the
direct parse fails and the greedy first-brace-to-last-brace span includes the
stray right brace, so the span parse fails too. -/
theorem extract_json_unique_object_fails :
    uniqueJsonObject c1Text (Json.obj [("a".data, Json.num "1".data)]) ∧
      _extract_json c1Text = none := by
  constructor
  · constructor
    · intro h
      have e : objValuesIn c1Text =
          [Json.obj [("a".data, Json.num "1".data)],
           Json.obj [("a".data, Json.num "1".data)]] := by rfl
      rw [e] at h
      cases h
    · intro w hw
      have e : objValuesIn c1Text =
          [Json.obj [("a".data, Json.num "1".data)],
           Json.obj [("a".data, Json.num "1".data)]] := by rfl
      rw [e] at hw
      simp only [List.mem_cons, List.not_mem_nil, or_false, or_self] at hw
      exact hw
  · rfl

/-- C1, amended: if the text decomposes as `pre ++ obj ++ post` where `obj` is
a well-formed JSON value delimited by a left and a right brace, `pre` contains
no left brace, `post` contains no right brace, and the full text does not
itself parse as JSON, then `_extract_json` returns `obj`'s parse; the direct
parse of the full text is attempted first, and if neither parse succeeds (or
no brace span exists) the extractor fails with an error that propagates. -/
theorem extract_json_amended (pre mid post : List Char) (v : Json)
    (hobj : jsonParse (lbrace :: mid ++ [rbrace]) = some v)
    (hpre : lbrace ∉ pre) (hpost : rbrace ∉ post)
    (hfull : jsonParse (pre ++ (lbrace :: mid ++ [rbrace]) ++ post) = none) :
    _extract_json (pre ++ (lbrace :: mid ++ [rbrace]) ++ post) = some v := by
  simp only [_extract_json, hfull, braceSpan_decomp pre mid post hpre hpost, hobj]

/-- Witness for the amended C1 at a concrete decomposition. -/
theorem extract_json_amended_witness :
    _extract_json (" x ".data ++ (lbrace :: "\"a\": 1".data ++ [rbrace]) ++ " y".data) =
      some (Json.obj [("a".data, Json.num "1".data)]) :=
  extract_json_amended " x ".data "\"a\": 1".data " y".data _
    (by rfl) (by decide) (by decide) (by rfl)

/-- C2: in both pipeline modes, the context of phase N+1 is phase N's input
context with exactly one synthetic user message appended — the rendered plan
(as produced by `renderPlan`, a bullet list when the plan is a sequence) before
the diagram phase, and the diagram text before the code phase — so no earlier
message is removed and the context grows monotonically. `diagram_context` and
`code_context` are the context constructors used by both `chatBody` (blocking)
and `tryBody` (streaming). -/
theorem context_monotone_across_phases (pm : List ChatMessage) (plan : Json)
    (pc dmContent : List Char) (hrender : renderPlan plan = Except.ok pc) :
    diagram_context pm pc = pm ++ [⟨Role.user, pc⟩] ∧
      code_context (diagram_context pm pc) dmContent =
        diagram_context pm pc ++ [⟨Role.user, dmContent⟩] ∧
      (∃ tail, diagram_context pm pc = pm ++ tail) ∧
      (∃ tail, code_context (diagram_context pm pc) dmContent = pm ++ tail) := by
  refine ⟨rfl, rfl, ⟨_, rfl⟩, ⟨[⟨Role.user, pc⟩] ++ [⟨Role.user, dmContent⟩], ?_⟩⟩
  simp [diagram_context, code_context]

/-- Witness for C2 at a concrete conversation and plan. -/
theorem context_monotone_across_phases_witness :
    diagram_context [⟨Role.user, "hi".data⟩] "Plan:\n- x".data =
        [⟨Role.user, "hi".data⟩] ++ [⟨Role.user, "Plan:\n- x".data⟩] ∧
      code_context (diagram_context [⟨Role.user, "hi".data⟩] "Plan:\n- x".data) "Diagram:\nD".data =
        diagram_context [⟨Role.user, "hi".data⟩] "Plan:\n- x".data ++
          [⟨Role.user, "Diagram:\nD".data⟩] ∧
      (∃ tail, diagram_context [⟨Role.user, "hi".data⟩] "Plan:\n- x".data =
        [⟨Role.user, "hi".data⟩] ++ tail) ∧
      (∃ tail, code_context (diagram_context [⟨Role.user, "hi".data⟩] "Plan:\n- x".data)
        "Diagram:\nD".data = [⟨Role.user, "hi".data⟩] ++ tail) :=
  context_monotone_across_phases [⟨Role.user, "hi".data⟩]
    (Json.arr [Json.str "x".data]) "Plan:\n- x".data "Diagram:\nD".data (by rfl)

/-- C3: whenever the blocking pipeline body raises at any step (upstream call,
JSON extraction, field access, rendering, or response validation), `chat`
returns exactly the fixed fallback response — the fixed apologetic text, the
fixed placeholder diagram, and `BASE_AGENT_TEMPLATE` as code — with `raw_text`
carrying the rendered exception. -/
theorem chat_failure_returns_fallback (msgs : List ChatMessage)
    (call : GenPhase → List ChatMessage → Except (List Char) (List Char)) (e : List Char)
    (h : chatBody msgs call = Except.error e) :
    chat msgs call =
      ⟨fallbackAssistantText, fallbackDiagram, BASE_AGENT_TEMPLATE.data, some e⟩ := by
  unfold chat
  rw [h]

/-- Witness for C3: a run whose first upstream call raises. -/
theorem chat_failure_returns_fallback_witness :
    chat [] (fun _ _ => Except.error "upstream call failed".data) =
      ⟨fallbackAssistantText, fallbackDiagram, BASE_AGENT_TEMPLATE.data,
        some "upstream call failed".data⟩ :=
  chat_failure_returns_fallback [] (fun _ _ => Except.error "upstream call failed".data)
    "upstream call failed".data (by rfl)

/-- C4: agent code of exactly 120000 characters passes the size check (the
runner proceeds to the remaining checks and, possibly, execution), while code
of 120001 or more characters short-circuits with `ok = false`,
`exit_code = 1`, empty stdout and the fixed size-limit stderr, independently
of the subprocess outcome — so nothing is executed. -/
theorem runner_size_boundary (agent_code prompt : List Char)
    (tools : Option (List (List Char))) (exec : ExecOutcome) :
    (agent_code.length = 120000 →
      _run_agent_code agent_code prompt tools exec = postSizeChecks agent_code exec) ∧
    (120001 ≤ agent_code.length →
      _run_agent_code agent_code prompt tools exec = ⟨false, [], sizeLimitMsg, 1⟩) := by
  constructor
  · intro h
    unfold _run_agent_code
    rw [if_neg (by omega)]
  · intro h
    unfold _run_agent_code
    rw [if_pos (by omega)]

/-- Witness for C4 at the two boundary lengths. -/
theorem runner_size_boundary_witness :
    _run_agent_code (List.replicate 120000 'a') [] none (ExecOutcome.launchFailed []) =
        postSizeChecks (List.replicate 120000 'a') (ExecOutcome.launchFailed []) ∧
      _run_agent_code (List.replicate 120001 'a') [] none (ExecOutcome.launchFailed []) =
        ⟨false, [], sizeLimitMsg, 1⟩ :=
  ⟨(runner_size_boundary _ _ _ _).1 (by rw [List.length_replicate]),
   (runner_size_boundary _ _ _ _).2 (by rw [List.length_replicate])⟩

/-- C5: within the size limit, code with no `class Agent` definition fails with
the fixed missing-class message, and code with the class but no conforming
`run(self, task: str) -> str` signature fails with the fixed missing-run
message; both results are `ok = false`, `exit_code = 1`, empty stdout, hold
for every subprocess outcome (so no subprocess is launched), and the checks
apply in the order size, class, run-signature with the first failure
short-circuiting. -/
theorem runner_validation_order (agent_code prompt : List Char)
    (tools : Option (List (List Char))) (exec : ExecOutcome)
    (hlen : agent_code.length ≤ 120000) :
    (hasClassAgent agent_code = false →
      _run_agent_code agent_code prompt tools exec = ⟨false, [], missingClassMsg, 1⟩) ∧
    (hasClassAgent agent_code = true → hasRunSig agent_code = false →
      _run_agent_code agent_code prompt tools exec = ⟨false, [], missingRunMsg, 1⟩) := by
  constructor
  · intro h
    unfold _run_agent_code postSizeChecks
    rw [if_neg (by omega)]
    simp [h]
  · intro h1 h2
    unfold _run_agent_code postSizeChecks
    rw [if_neg (by omega)]
    simp [h1, h2]

/-- Witness for C5: code lacking the class, and code lacking the signature. -/
theorem runner_validation_order_witness :
    _run_agent_code "print(1)".data [] none (ExecOutcome.completed 0 [] []) =
        ⟨false, [], missingClassMsg, 1⟩ ∧
      _run_agent_code "class Agent: pass".data [] none (ExecOutcome.completed 0 [] []) =
        ⟨false, [], missingRunMsg, 1⟩ :=
  ⟨(runner_validation_order _ _ _ _ (by decide)).1 (by decide),
   (runner_validation_order _ _ _ _ (by decide)).2 (by decide) (by decide)⟩

/-- C6: when the subprocess for validated agent code exceeds the 60-second
timeout, the runner returns `ok = false`, `exit_code = 124`, the fixed timeout
stderr, and as stdout the partial output captured before the kill (empty when
none was captured). -/
theorem runner_timeout_result (agent_code prompt : List Char)
    (tools : Option (List (List Char))) (captured : Option (List Char))
    (hlen : agent_code.length ≤ 120000) (hcls : hasClassAgent agent_code = true)
    (hsig : hasRunSig agent_code = true) :
    _run_agent_code agent_code prompt tools (ExecOutcome.timedOut captured) =
      ⟨false, captured.getD [], timeoutMsg, 124⟩ := by
  unfold _run_agent_code postSizeChecks
  rw [if_neg (by omega)]
  simp [hcls, hsig]

/-- Witness for C6 at a conforming agent whose run times out with partial
output. -/
theorem runner_timeout_result_witness :
    _run_agent_code
        "class Agent:\n    def run(self, task: str) -> str:\n        return task".data
        "hello".data none (ExecOutcome.timedOut (some "part".data)) =
      ⟨false, "part".data, timeoutMsg, 124⟩ :=
  runner_timeout_result _ _ _ _ (by decide) (by decide) (by decide)

/-- C7: the runner is a total function — every invocation produces a
`RunResponse` with all four fields — and its `ok` field is `true` exactly when
validation passed and the subprocess terminated with exit code 0; validation
failures, timeouts and launch failures are reported in the result rather than
raised. -/
theorem runner_ok_iff_exit_zero (agent_code prompt : List Char)
    (tools : Option (List (List Char))) (exec : ExecOutcome) :
    (_run_agent_code agent_code prompt tools exec).ok = true ↔
      ((agent_code.length ≤ 120000 ∧ hasClassAgent agent_code = true ∧
          hasRunSig agent_code = true) ∧
        ∃ out err, exec = ExecOutcome.completed 0 out err) := by
  unfold _run_agent_code postSizeChecks
  by_cases h1 : 120000 < agent_code.length
  · rw [if_pos h1]
    constructor
    · intro h
      exact Bool.noConfusion h
    · rintro ⟨⟨hlen, _, _⟩, _⟩
      omega
  · rw [if_neg h1]
    cases hca : hasClassAgent agent_code with
    | false =>
      rw [if_pos (by rfl)]
      constructor
      · intro h
        exact Bool.noConfusion h
      · rintro ⟨⟨_, hc, _⟩, _⟩
        exact Bool.noConfusion hc
    | true =>
      rw [if_neg (by simp)]
      cases hrs : hasRunSig agent_code with
      | false =>
        rw [if_pos (by rfl)]
        constructor
        · intro h
          exact Bool.noConfusion h
        · rintro ⟨⟨_, _, hs⟩, _⟩
          exact Bool.noConfusion hs
      | true =>
        rw [if_neg (by simp)]
        cases exec with
        | completed rc out err =>
          show (rc == 0) = true ↔ _
          constructor
          · intro h
            have h0 : rc = 0 := by simpa using h
            exact ⟨⟨by omega, rfl, rfl⟩, out, err, by rw [h0]⟩
          · rintro ⟨_, o, e2, hc⟩
            injection hc with hrc _ _
            simp [hrc]
        | timedOut captured =>
          show (false : Bool) = true ↔ _
          simp
        | launchFailed m =>
          show (false : Bool) = true ↔ _
          simp

/-- C8, counterexample: a conversation consisting of one user turn with
whitespace-only content has a user-role turn, yet no synthetic pre-processed
turn is appended before the plan phase (the code conditions on the truthiness
of the joined trimmed text, not on the presence of user turns). -/
theorem preprocess_note_claim_fails :
    ([(⟨Role.user, " ".data⟩ : ChatMessage)].any (fun m => m.role == Role.user)) = true ∧
      ¬ ∃ note, mkPlannerMessages [⟨Role.user, " ".data⟩] =
        [(⟨Role.user, " ".data⟩ : ChatMessage)] ++ [note] := by
  constructor
  · decide
  · rintro ⟨note, h⟩
    have h0 : mkPlannerMessages [⟨Role.user, " ".data⟩] = [⟨Role.user, " ".data⟩] := by decide
    rw [h0] at h
    simpa using congrArg List.length h

/-- C8, amended: exactly one synthetic user turn — the trimmed, space-joined
user contents prefixed with the fixed pre-processed-input marker — is appended
before the plan phase if and only if that joined trimmed text is non-empty;
in particular no turn is appended when the conversation has no user turns or
all user contents are whitespace. -/
theorem preprocess_note_amended (msgs : List ChatMessage) :
    (processedText msgs ≠ [] →
      mkPlannerMessages msgs = msgs ++ [⟨Role.user, ingestNoteMark ++ processedText msgs⟩]) ∧
    (processedText msgs = [] → mkPlannerMessages msgs = msgs) := by
  constructor <;> intro h <;> simp [mkPlannerMessages, h]

/-- Witness for the amended C8: a non-trivial user turn gets the note; an
assistant-only conversation does not. -/
theorem preprocess_note_amended_witness :
    mkPlannerMessages [⟨Role.user, "hi".data⟩] =
        [(⟨Role.user, "hi".data⟩ : ChatMessage)] ++
          [⟨Role.user, ingestNoteMark ++ processedText [⟨Role.user, "hi".data⟩]⟩] ∧
      mkPlannerMessages [⟨Role.assistant, "yo".data⟩] = [⟨Role.assistant, "yo".data⟩] :=
  ⟨(preprocess_note_amended _).1 (by decide), (preprocess_note_amended _).2 (by decide)⟩

/-- C9: every streaming run emits exactly one terminal event after a prefix of
non-terminal events, all of which are delivered: a single `error` event when an
exception occurred at any point, and otherwise a single `all.done` event after
the three phases' events. -/
theorem stream_single_terminal_event (msgs : List ChatMessage)
    (beh : GenPhase → List ChatMessage → StreamBeh) :
    ∃ pre : List SSE, pre.all nonTerminal = true ∧
      ((∃ m, eventStream msgs beh = pre ++ [SSE.errorEvent m]) ∨
        eventStream msgs beh = pre ++ [SSE.message Payload.allDone]) := by
  obtain ⟨pre, hpre, h | h⟩ := tryBody_shape msgs beh
  · obtain ⟨m, hm⟩ := h
    exact ⟨pre, hpre, Or.inl ⟨m, by unfold eventStream; rw [hm]⟩⟩
  · exact ⟨pre, hpre, Or.inr (by unfold eventStream; rw [h])⟩

/-- C10: the blocking pipeline's `raw_text` is absent exactly when the `try`
body succeeded (all three phases, field extraction and response validation);
it is populated exactly when the fallback outcome is returned, so its presence
alone distinguishes the fallback from a genuine result. -/
theorem chat_raw_text_none_iff_success (msgs : List ChatMessage)
    (call : GenPhase → List ChatMessage → Except (List Char) (List Char)) :
    (chat msgs call).raw_text = none ↔ ∃ r, chatBody msgs call = Except.ok r := by
  unfold chat
  cases h : chatBody msgs call with
  | ok r => simp
  | error e => simp
